import Mathlib

/-!
Verification of the GitHub-to-Social automation pipeline (modular variant).

This file shallowly embeds the Python sources of the repository:
`github_handler.py`, `event_manager.py`, `ai_processor.py`,
`linkedin_poster.py`, `scheduler.py`, `app.py`.  Pure functions become Lean
functions; file-system state becomes an explicit map from file names to file
contents; fallible Python code returns `Except PyErr`.  Library primitives the
code calls (`hashlib.sha256`, `hmac`, UTF-8 encoding, `str.replace`, ...) are
implemented concretely and executably so that every theorem can be checked on
closed inputs.
-/

/-! ## Bytes, hex digests and UTF-8 (models of `hashlib` / `str.encode`) -/

/-- 2^32, the word modulus of SHA-256. -/
def m32 : Nat := 4294967296

/-- 32-bit all-ones mask. -/
def mask32 : Nat := 4294967295

/-- Rotate the 32-bit word `x` right by `n` positions. -/
def rotr32 (n x : Nat) : Nat := ((x >>> n) ||| (x <<< (32 - n))) % m32

/-- SHA-256 small sigma 0. -/
def ssig0 (x : Nat) : Nat := (rotr32 7 x) ^^^ (rotr32 18 x) ^^^ (x >>> 3)

/-- SHA-256 small sigma 1. -/
def ssig1 (x : Nat) : Nat := (rotr32 17 x) ^^^ (rotr32 19 x) ^^^ (x >>> 10)

/-- SHA-256 big sigma 0. -/
def bsig0 (x : Nat) : Nat := (rotr32 2 x) ^^^ (rotr32 13 x) ^^^ (rotr32 22 x)

/-- SHA-256 big sigma 1. -/
def bsig1 (x : Nat) : Nat := (rotr32 6 x) ^^^ (rotr32 11 x) ^^^ (rotr32 25 x)

/-- Big-endian byte encoding of `n` into `k` bytes. -/
def beBytes (k n : Nat) : List Nat :=
  (List.range k).map (fun i => (n >>> (8 * (k - 1 - i))) % 256)

/-- The 64 round constants of SHA-256 (FIPS 180-4), in decimal. -/
def K256 : List Nat :=
  [1116352408, 1899447441, 3049323471, 3921009573, 961987163,
   1508970993, 2453635748, 2870763221, 3624381080, 310598401,
   607225278, 1426881987, 1925078388, 2162078206, 2614888103,
   3248222580, 3835390401, 4022224774, 264347078, 604807628,
   770255983, 1249150122, 1555081692, 1996064986, 2554220882,
   2821834349, 2952996808, 3210313671, 3336571891, 3584528711,
   113926993, 338241895, 666307205, 773529912, 1294757372,
   1396182291, 1695183700, 1986661051, 2177026350, 2456956037,
   2730485921, 2820302411, 3259730800, 3345764771, 3516065817,
   3600352804, 4094571909, 275423344, 430227734, 506948616,
   659060556, 883997877, 958139571, 1322822218, 1537002063,
   1747873779, 1955562222, 2024104815, 2227730452, 2361852424,
   2428436474, 2756734187, 3204031479, 3329325298]

/-- SHA-256 working state: eight 32-bit words. -/
structure Hash8 where
  a : Nat
  b : Nat
  c : Nat
  d : Nat
  e : Nat
  f : Nat
  g : Nat
  hh : Nat
deriving DecidableEq

/-- The initial SHA-256 state (FIPS 180-4), in decimal. -/
def initH : Hash8 :=
  ⟨1779033703, 3144134277, 1013904242, 2773480762,
   1359893119, 2600822924, 528734635, 1541459225⟩

/-- One round of the SHA-256 compression function; `wk = (k_i, w_i)`. -/
def compressStep (s : Hash8) (wk : Nat × Nat) : Hash8 :=
  let ch := (s.e &&& s.f) ^^^ ((s.e ^^^ mask32) &&& s.g)
  let t1 := (s.hh + bsig1 s.e + ch + wk.1 + wk.2) % m32
  let maj := (s.a &&& s.b) ^^^ (s.a &&& s.c) ^^^ (s.b &&& s.c)
  let t2 := (bsig0 s.a + maj) % m32
  ⟨(t1 + t2) % m32, s.a, s.b, s.c, (s.d + t1) % m32, s.e, s.f, s.g⟩

/-- Fieldwise addition of hash states modulo 2^32. -/
def add8 (x y : Hash8) : Hash8 :=
  ⟨(x.a + y.a) % m32, (x.b + y.b) % m32, (x.c + y.c) % m32, (x.d + y.d) % m32,
   (x.e + y.e) % m32, (x.f + y.f) % m32, (x.g + y.g) % m32, (x.hh + y.hh) % m32⟩

/-- Group a byte list into big-endian 32-bit words. -/
def wordsOf : List Nat → List Nat
  | b0 :: b1 :: b2 :: b3 :: rest =>
    (((b0 * 256 + b1) * 256 + b2) * 256 + b3) :: wordsOf rest
  | _ => []

/-- Extend the 16 message words to the 64-entry message schedule. -/
def schedule (ws : List Nat) : List Nat :=
  (List.range 48).foldl
    (fun w _ =>
      let n := w.length
      w ++ [(ssig1 (w.getD (n - 2) 0) + w.getD (n - 7) 0 +
             ssig0 (w.getD (n - 15) 0) + w.getD (n - 16) 0) % m32])
    ws

/-- Process one 64-byte chunk. -/
def processChunk (st : Hash8) (chunk : List Nat) : Hash8 :=
  let w := schedule (wordsOf chunk)
  add8 st ((K256.zip w).foldl compressStep st)

/-- SHA-256 message padding: `0x80`, zeros to 56 mod 64, 64-bit bit length. -/
def padMessage (msg : List Nat) : List Nat :=
  msg ++ 0x80 :: (List.replicate ((119 - msg.length % 64) % 64) 0 ++
    beBytes 8 (8 * msg.length))

/-- Split a byte list into 64-byte chunks (fuel-structured so it computes). -/
def toChunksAux : Nat → List Nat → List (List Nat)
  | 0, _ => []
  | _, [] => []
  | fuel + 1, b :: bs => ((b :: bs).take 64) :: toChunksAux fuel ((b :: bs).drop 64)

/-- Split a byte list into 64-byte chunks. -/
def toChunks (l : List Nat) : List (List Nat) := toChunksAux l.length l

/-- SHA-256 of a byte list, as a 32-byte digest (model of `hashlib.sha256`). -/
def sha256 (msg : List Nat) : List Nat :=
  let st := (toChunks (padMessage msg)).foldl processChunk initH
  beBytes 4 st.a ++ beBytes 4 st.b ++ beBytes 4 st.c ++ beBytes 4 st.d ++
  beBytes 4 st.e ++ beBytes 4 st.f ++ beBytes 4 st.g ++ beBytes 4 st.hh

/-- HMAC-SHA256 with a 64-byte block size (model of `hmac.new(..., sha256)`). -/
def hmacSha256 (key msg : List Nat) : List Nat :=
  let k0 := if 64 < key.length then sha256 key else key
  let k := k0 ++ List.replicate (64 - k0.length) 0
  let ipad := k.map (fun b => b ^^^ 0x36)
  let opad := k.map (fun b => b ^^^ 0x5c)
  sha256 (opad ++ sha256 (ipad ++ msg))

/-- Lowercase hex digit for a value below 16. -/
def hexDigit (n : Nat) : Char :=
  if n < 10 then Char.ofNat (48 + n) else Char.ofNat (87 + n)

/-- Two lowercase hex characters per byte. -/
def hexChars : List Nat → List Char
  | [] => []
  | b :: bs => hexDigit (b / 16) :: hexDigit (b % 16) :: hexChars bs

/-- Lowercase hex string of a byte list (model of `.hexdigest()`). -/
def bytesToHex (bs : List Nat) : String := String.mk (hexChars bs)

/-- UTF-8 encoding of one code point. -/
def utf8EncodeChar (c : Char) : List Nat :=
  let n := c.toNat
  if n < 0x80 then [n]
  else if n < 0x800 then
    [0xc0 ||| (n >>> 6), 0x80 ||| (n &&& 0x3f)]
  else if n < 0x10000 then
    [0xe0 ||| (n >>> 12), 0x80 ||| ((n >>> 6) &&& 0x3f), 0x80 ||| (n &&& 0x3f)]
  else
    [0xf0 ||| (n >>> 18), 0x80 ||| ((n >>> 12) &&& 0x3f),
     0x80 ||| ((n >>> 6) &&& 0x3f), 0x80 ||| (n &&& 0x3f)]

/-- UTF-8 bytes of a string (model of `str.encode()`). -/
def strToBytes (s : String) : List Nat := (s.data.map utf8EncodeChar).flatten

/-! ## Python error values and small Python-semantics helpers -/

/-- The Python exceptions the embedded code can raise. -/
inductive PyErr where
  | typeErr
  | keyErr (k : String)
  | attributeErr
  | valueErr
  | writeErr
  | httpErr (status : Nat)
  | requestExc
deriving DecidableEq

instance {ε α : Type} [DecidableEq ε] [DecidableEq α] : DecidableEq (Except ε α) := fun
  | .ok a, .ok b =>
    if h : a = b then .isTrue (by rw [h]) else .isFalse (fun he => by cases he; exact h rfl)
  | .error a, .error b =>
    if h : a = b then .isTrue (by rw [h]) else .isFalse (fun he => by cases he; exact h rfl)
  | .ok _, .error _ => .isFalse (fun he => by cases he)
  | .error _, .ok _ => .isFalse (fun he => by cases he)

/-- A string is ASCII-only (`hmac.compare_digest` on `str` requires this). -/
def asciiOnly (s : String) : Bool := s.data.all (fun c => c.toNat < 128)

/-- Model of `hmac.compare_digest(a, b)` where `a` is a string and `b` is the
value of a request header (`None` when the header is absent).  CPython raises
`TypeError` when either argument is not an ASCII-only `str`; the timing
behaviour is not modelled, only the comparison result. -/
def compare_digest (a : String) (b : Option String) : Except PyErr Bool :=
  match b with
  | none => .error .typeErr
  | some s => if asciiOnly a && asciiOnly s then .ok (a == s) else .error .typeErr

/-! ## `github_handler.py`: `GitHubHandler.verify_webhook_signature` -/

/-- The `"sha256=" + hexdigest` string the handler computes for a body. -/
def expectedSignature (secret : String) (data : List Nat) : String :=
  "sha256=" ++ bytesToHex (hmacSha256 (strToBytes secret) data)

/-- Model of `GitHubHandler.verify_webhook_signature`.  `webhookSecret` is
`Config.GITHUB_WEBHOOK_SECRET` (`none` when the environment variable is unset;
the empty string is also falsy in Python).  `signature` is the
`X-Hub-Signature-256` header (`none` when absent). -/
def verify_webhook_signature (webhookSecret : Option String) (data : List Nat)
    (signature : Option String) : Except PyErr Bool :=
  match webhookSecret with
  | none => .ok false
  | some sec =>
    if sec = "" then .ok false
    else compare_digest (expectedSignature sec data) signature

/-! ## JSON values and Python dict / string helpers -/

mutual
/-- JSON-like Python values (webhook payload fields).  Mutual with explicit
list/object spines so that all recursions stay structural and computable. -/
inductive JValue where
  | null
  | bool (b : Bool)
  | num (n : Int)
  | str (s : String)
  | arr (xs : JList)
  | obj (kvs : JObj)
inductive JList where
  | nil
  | cons (hd : JValue) (tl : JList)
inductive JObj where
  | nil
  | cons (k : String) (v : JValue) (tl : JObj)
end

/-- Build a `JList` from a Lean list. -/
def JList.ofList : List JValue → JList
  | [] => .nil
  | x :: xs => .cons x (JList.ofList xs)

/-- Build a `JObj` from a Lean association list. -/
def JObj.ofList : List (String × JValue) → JObj
  | [] => .nil
  | (k, v) :: kvs => .cons k v (JObj.ofList kvs)

/-- Number of elements of a `JList`. -/
def JList.length : JList → Nat
  | .nil => 0
  | .cons _ tl => tl.length + 1

/-- Number of entries of a `JObj`. -/
def JObj.length : JObj → Nat
  | .nil => 0
  | .cons _ _ tl => tl.length + 1

/-- Key lookup in a Python dict (keys are unique in a real dict). -/
def JObj.lookup : JObj → String → Option JValue
  | .nil, _ => none
  | .cons k' v tl, k => if k' = k then some v else tl.lookup k

/-- Python truthiness of a JSON value. -/
def pyTruthy : JValue → Bool
  | .null => false
  | .bool b => b
  | .num n => n != 0
  | .str s => s != ""
  | .arr .nil => false
  | .arr _ => true
  | .obj .nil => false
  | .obj _ => true

/-- Python `a or b` (returns the first truthy operand, else the last). -/
def pyOr (a b : JValue) : JValue := if pyTruthy a then a else b

mutual
/-- Python `repr()` of a JSON-like value. -/
def pyRepr : JValue → String
  | .null => "None"
  | .bool b => if b then "True" else "False"
  | .num n => toString n
  | .str s => "\x27" ++ s ++ "\x27"
  | .arr xs => "[" ++ String.intercalate ", " (pyReprList xs) ++ "]"
  | .obj kvs => "\x7b" ++ String.intercalate ", " (pyReprObj kvs) ++ "\x7d"
def pyReprList : JList → List String
  | .nil => []
  | .cons x xs => pyRepr x :: pyReprList xs
def pyReprObj : JObj → List String
  | .nil => []
  | .cons k v kvs => ("\x27" ++ k ++ "\x27: " ++ pyRepr v) :: pyReprObj kvs
end

/-- Python `str()` of a JSON-like value (as interpolated by an f-string). -/
def pyStr : JValue → String
  | .str s => s
  | v => pyRepr v

/-- Python `len()`: lists, strings and dicts have a length, others raise. -/
def pyLen : JValue → Except PyErr Nat
  | .str s => .ok s.length
  | .arr xs => .ok xs.length
  | .obj kvs => .ok kvs.length
  | _ => .error .typeErr

/-- Python `v.get(k, d)` for a value expected to be a dict: `AttributeError`
when `v` is not a dict. -/
def jGetD (v : JValue) (k : String) (d : JValue) : Except PyErr JValue :=
  match v with
  | .obj kvs => .ok ((kvs.lookup k).getD d)
  | _ => .error .attributeErr

/-- Python `v.get(k)` (default `None`). -/
def jGet (v : JValue) (k : String) : Except PyErr JValue := jGetD v k .null

/-- One pass of Python `str.replace` over the character list; the fuel is the
length of the subject, enough because each step consumes at least one
character (the pattern is the non-empty constant `"refs/heads/"`). -/
def replaceAux (pat rep : List Char) : Nat → List Char → List Char
  | 0, s => s
  | _, [] => []
  | fuel + 1, c :: rest =>
    if pat.isPrefixOf (c :: rest) ∧ pat ≠ [] then
      rep ++ replaceAux pat rep fuel (List.drop (pat.length - 1) rest)
    else
      c :: replaceAux pat rep fuel rest

/-- Python `s.replace(pat, rep)`: every non-overlapping occurrence, left to
right. -/
def pyReplace (s pat rep : String) : String :=
  String.mk (replaceAux pat.data rep.data s.data.length s.data)

/-! ## `event_manager.py`: `EventManager` -/

/-- Model of `EventManager.summarize_event`.  Mirrors the source line by line:
the repository name is resolved first (`full_name or name or 'unknown-repo'`),
then the per-event-type sentence is built, raising exactly where Python would
(`.get` on a non-dict, `.replace` on a non-string, `len` of an unsized
value). -/
def summarize_event (event_type : String) (payload : JObj) : Except PyErr String :=
  match jGet ((payload.lookup "repository").getD (.obj .nil)) "full_name" with
  | .error e => .error e
  | .ok full =>
  match jGet ((payload.lookup "repository").getD (.obj .nil)) "name" with
  | .error e => .error e
  | .ok nm =>
  let repo_name := pyOr full (pyOr nm (.str "unknown-repo"))
  if event_type = "push" then
    match (payload.lookup "ref").getD (.str "") with
    | .str s =>
      (match pyLen ((payload.lookup "commits").getD (.arr .nil)) with
       | .error e => .error e
       | .ok n =>
         .ok ("Pushed " ++ toString n ++ " commits to " ++ pyReplace s "refs/heads/" "" ++
           " in " ++ pyStr repo_name))
    | _ => .error .attributeErr
  else if event_type = "release" then
    match jGetD ((payload.lookup "release").getD (.obj .nil)) "tag_name" (.str "unknown") with
    | .error e => .error e
    | .ok tag => .ok ("Released version " ++ pyStr tag ++ " in " ++ pyStr repo_name)
  else if event_type = "repository" then
    .ok ("Repository " ++ pyStr ((payload.lookup "action").getD (.str "updated")) ++ ": " ++
      pyStr repo_name)
  else if event_type = "organization" then
    .ok ("Organization " ++ pyStr ((payload.lookup "action").getD (.str "updated")))
  else
    .ok (event_type ++ " event occurred in " ++ pyStr repo_name)

/-- The displayed repository name (`str()` of the `or`-chain), exposed for
stating theorems about `summarize_event`. -/
def repoDisplay (payload : JObj) : Except PyErr String :=
  match jGet ((payload.lookup "repository").getD (.obj .nil)) "full_name" with
  | .error e => .error e
  | .ok full =>
  match jGet ((payload.lookup "repository").getD (.obj .nil)) "name" with
  | .error e => .error e
  | .ok nm => .ok (pyStr (pyOr full (pyOr nm (.str "unknown-repo"))))

/-- One stored event record (`event_data` in `save_event`). -/
structure Event where
  type : String
  timestamp : String
  summary : String
  payload : JObj

/-- Contents of one persisted file: either a parsable list of events or an
unparsable/corrupt file. -/
inductive FileData where
  | corrupt
  | events (es : List Event)

/-- The working directory: file name to contents (`none` = no such file). -/
def FS : Type := String → Option FileData

/-- Write/overwrite/delete one file. -/
def fsSet (fs : FS) (k : String) (v : Option FileData) : FS :=
  fun k' => if k' = k then v else fs k'

/-- `events_YYYY-MM-DD.json`, the active day bucket. -/
def eventsFile (date : String) : String := "events_" ++ date ++ ".json"

/-- `posted_events_YYYY-MM-DD.json`, the archived day bucket. -/
def postedFile (date : String) : String := "posted_events_" ++ date ++ ".json"

/-- What `json.load` on the bucket yields inside `save_event`/`load_events`:
missing or unparsable files are treated as the empty list. -/
def readBucket (fs : FS) (date : String) : List Event :=
  match fs (eventsFile date) with
  | some (.events es) => es
  | some .corrupt => []
  | none => []

/-- Model of `EventManager.save_event`.  `date`/`timestamp` stand for
`datetime.now()`; `writeOk` models whether the final write raises `IOError`
(which the source re-raises to its caller). -/
def save_event (date timestamp : String) (writeOk : Bool) (fs : FS)
    (event_type : String) (payload : JObj) : Except PyErr FS :=
  match summarize_event event_type payload with
  | .error e => .error e
  | .ok summary =>
    if writeOk then
      .ok (fsSet fs (eventsFile date)
        (some (.events (readBucket fs date ++ [⟨event_type, timestamp, summary, payload⟩]))))
    else .error .writeErr

/-- Model of `EventManager.load_events` (date always passed explicitly; the
Python default fills in today's date).  Never raises. -/
def load_events (fs : FS) (date : String) : List Event := readBucket fs date

/-- Model of `EventManager.archive_events`: rename the active bucket to the
archived name; `renameOk` models whether `os.rename` raises `OSError`. -/
def archive_events (renameOk : Bool) (fs : FS) (date : String) : Bool × FS :=
  match fs (eventsFile date) with
  | none => (false, fs)
  | some fd =>
    if renameOk then
      (true, fsSet (fsSet fs (eventsFile date) none) (postedFile date) (some fd))
    else (false, fs)

/-! ## `github_handler.py` / `app.py`: event processing and the webhook route -/

/-- The supported GitHub event types (`GitHubHandler.get_supported_events`). -/
def supported_events : List String := ["push", "release", "repository", "organization"]

/-- Model of `GitHubHandler.process_webhook_event`: unsupported types are
ignored, any exception from `save_event` is swallowed into `False`.  Returns
the boolean result and the resulting file system. -/
def process_webhook_event (date timestamp : String) (writeOk : Bool) (fs : FS)
    (event_type : Option String) (payload : JObj) : Bool × FS :=
  match event_type with
  | none => (false, fs)
  | some ty =>
    if ty ∈ supported_events then
      match save_event date timestamp writeOk fs ty payload with
      | .ok fs' => (true, fs')
      | .error _ => (false, fs)
    else (false, fs)

/-- Model of the Flask `POST /webhook` route (`github_webhook` in `app.py`):
signature failure answers 403, an exception inside the handler answers 500,
and a processed or ignored event answers 200. -/
def github_webhook (webhookSecret : Option String) (body : List Nat)
    (signature : Option String) (event_type : Option String) (payload : JObj)
    (date timestamp : String) (writeOk : Bool) (fs : FS) : Nat × FS :=
  match verify_webhook_signature webhookSecret body signature with
  | .error _ => (500, fs)
  | .ok false => (403, fs)
  | .ok true =>
    (200, (process_webhook_event date timestamp writeOk fs event_type payload).2)

/-! ## `scheduler.py`: `DailyScheduler._handle_posting_result` -/

/-- Model of `DailyScheduler._handle_posting_result`: archive the bucket after
a successful publish, leave the file system untouched after a failed one. -/
def handle_posting_result (success renameOk : Bool) (fs : FS) (date : String) : FS :=
  if success then (archive_events renameOk fs date).2 else fs

/-! ## Substring search (Python `in` / containment statements) -/

/-- `needle.isPrefixOf` at some position of the haystack. -/
def hasInfix (needle : List Char) : List Char → Bool
  | [] => needle.isEmpty
  | c :: rest => needle.isPrefixOf (c :: rest) || hasInfix needle rest

/-- Python `needle in hay` for strings. -/
def strContains (hay needle : String) : Bool := hasInfix needle.data hay.data

/-! ## `ai_processor.py`: `AIProcessor.generate_daily_summary` -/

/-- Python `str.title()` (ASCII letters; event type strings are ASCII). -/
def pyTitleAux : Bool → List Char → List Char
  | _, [] => []
  | prevAlpha, c :: cs =>
    (if c.isAlpha then (if prevAlpha then c.toLower else c.toUpper) else c) ::
      pyTitleAux c.isAlpha cs

/-- Python `str.title()`. -/
def pyTitle (s : String) : String := String.mk (pyTitleAux false s.data)

/-- Python whitespace for `str.strip()` (the ASCII whitespace characters). -/
def isPyWs (c : Char) : Bool :=
  c == ' ' || c == Char.ofNat 9 || c == Char.ofNat 10 || c == Char.ofNat 13 ||
  c == Char.ofNat 11 || c == Char.ofNat 12

/-- Python `str.strip()`. -/
def pyStrip (s : String) : String :=
  String.mk (((s.data.dropWhile isPyWs).reverse.dropWhile isPyWs).reverse)

/-- Python `e[k]` subscript on a dict: `KeyError` when the key is absent. -/
def pyIndex (e : JObj) (k : String) : Except PyErr JValue :=
  match e.lookup k with
  | some v => .ok v
  | none => .error (.keyErr k)

/-- One element of the prompt list comprehension,
`f"- [e-type title]: [e-summary]"`: `KeyError` on a missing key,
`AttributeError` when `.title()` is called on a non-string type value. -/
def lineOf (e : JObj) : Except PyErr String :=
  match pyIndex e "type" with
  | .error err => .error err
  | .ok (.str t) =>
    (match pyIndex e "summary" with
     | .error err => .error err
     | .ok sv => .ok ("- " ++ pyTitle t ++ ": " ++ pyStr sv))
  | .ok _ => .error .attributeErr

/-- The list comprehension building `events_text`, element by element in
order, propagating the first exception (it runs before the `try` block). -/
def buildLines : List JObj → Except PyErr (List String)
  | [] => .ok []
  | e :: es =>
    match lineOf e with
    | .error err => .error err
    | .ok l =>
      match buildLines es with
      | .error err => .error err
      | .ok ls => .ok (l :: ls)

/-- The fallback list comprehension collecting the type of each event; a
`', '.join` of a non-string element would
raise on a non-string element (unreachable: `buildLines` succeeded first). -/
def extractTypes : List JObj → Except PyErr (List String)
  | [] => .ok []
  | e :: es =>
    match pyIndex e "type" with
    | .error err => .error err
    | .ok (.str t) =>
      (match extractTypes es with
       | .error err => .error err
       | .ok ts => .ok (t :: ts))
    | .ok _ => .error .typeErr

/-- Iteration of a CPython `set` of strings, modelled as first-occurrence
deduplication.  CPython does not fix the iteration order of a `str` set (hash
randomization); the theorems rely only on the result enumerating the distinct
elements, which any order satisfies. -/
def dedupSeen (seen : List String) : List String → List String
  | [] => []
  | x :: xs => if x ∈ seen then dedupSeen seen xs else x :: dedupSeen (x :: seen) xs

/-- `set(event_types)` as iterated by `', '.join`. -/
def pySetL (xs : List String) : List String := dedupSeen [] xs

/-- The prompt sent to the model, with `events_text` spliced in. -/
def promptText (eventsText : String) : String :=
  "Generate a factual summary of GitHub events with commit details.\n\nInput:\n" ++
  eventsText ++
  "\n\nOutput format:\n- List specific actions performed with details\n- Include actual commit messages and changes\n- Use format: \"X commits: [commit details]. PR #N: [PR title]. vX.X: [release notes]. Issue #N: [issue title].\"\n- No hashtags\n- No conversational language\n- Technical details only\n- Under 250 characters\n\nExample: \"5 commits: updated AI models, fixed API calls, added error handling. PR #42: user authentication feature. v2.1.0: new performance improvements. Issue #15: resolved memory leak.\"\n\nSummary:"

/-- The templated fallback sentence of the `except` branch. -/
def fallbackText (n : Nat) (tys : List String) : String :=
  "Today we had " ++ toString n ++ " GitHub activities including " ++
  String.intercalate ", " (pySetL tys) ++ ". Great progress on our projects!"

/-- Model of `AIProcessor.generate_daily_summary`.  `llm` is the outcome of
the `try` block (client creation plus chat completion): `some text` for a
successful call, `none` when it raises.  The `events_text` comprehension runs
before the `try`, so its exceptions propagate to the caller. -/
def generate_daily_summary (llm : String → Option String) (events : List JObj) :
    Except PyErr String :=
  match buildLines events with
  | .error e => .error e
  | .ok lines =>
    match llm (promptText (String.intercalate "\n" lines)) with
    | some resp => .ok (pyStrip resp)
    | none =>
      match extractTypes events with
      | .error e => .error e
      | .ok tys => .ok (fallbackText events.length tys)

/-- An event dict with a string type and a summary, as loaded from a bucket. -/
def wellFormedEvent (e : JObj) : Prop :=
  (∃ t, e.lookup "type" = some (.str t)) ∧ (e.lookup "summary").isSome = true

/-- The `type` value, when present, is a string. -/
def typeOkIfPresent (e : JObj) : Prop :=
  ∀ v, e.lookup "type" = some v → ∃ s, v = .str s

/-! ## `linkedin_poster.py`: `LinkedInPoster` -/

/-- Model of `requests.Response.raise_for_status()`: raises `HTTPError` for
4xx and 5xx status codes. -/
def raise_for_status (status : Nat) : Except PyErr Unit :=
  if 400 ≤ status ∧ status < 600 then .error (.httpErr status) else .ok ()

/-- Model of `LinkedInPoster.post_content`.  `identity` is the outcome of
`get_person_urn()` (which only raises `ValueError`); `postResult` is the
outcome of `requests.post` on the share payload (`RequestException` on
network failure, else a status code).  Every exception of those calls and of
`raise_for_status` is caught by the `except` clauses, so the model is a total
boolean. -/
def post_content (identity : Except PyErr String) (postResult : Except PyErr Nat) : Bool :=
  match identity with
  | .error _ => false
  | .ok _ =>
    match postResult with
    | .error _ => false
    | .ok status =>
      match raise_for_status status with
      | .error _ => false
      | .ok _ => true

/-- The `'='*50` delimiter line of a review file. -/
def eqLine : String := String.mk (List.replicate 50 '=')

/-- The fixed instruction-and-flag tail of a freshly written review file.
Note that the instruction sentence itself contains the literal text
`APPROVE=true`. -/
def reviewInstructions : String :=
  "\nTo approve this post, edit this file and change \x27APPROVE=false\x27 to \x27APPROVE=true\x27\nAPPROVE=false\n"

/-- The exact review artifact text `review_and_post` writes (`ts` stands for
`datetime.now().isoformat()`). -/
def buildReviewFile (ts content : String) (usePipedream : Bool) : String :=
  ("LinkedIn Post Review\n" ++
   "Generated at: " ++ ts ++ "\n" ++
   "Content length: " ++ toString content.length ++ " characters\n" ++
   "Posting method: " ++ (if usePipedream then "Pipedream" else "Direct LinkedIn") ++ "\n" ++
   "\n" ++ eqLine ++ "\n" ++
   content ++ "\n" ++
   eqLine ++ "\n") ++
  reviewInstructions

/-- Python `str.split('\n')`. -/
def splitOnNl : List Char → List (List Char)
  | [] => [[]]
  | c :: cs =>
    match splitOnNl cs with
    | [] => [[]]
    | r :: rs => if c = Char.ofNat 10 then [] :: r :: rs else (c :: r) :: rs

/-- The content-extraction loop of `review_and_post`: skip until the first
`=`-prefixed line, collect lines until the next one, dropping `APPROVE=`
lines. -/
def extractLines : Bool → List (List Char) → List (List Char)
  | _, [] => []
  | inc, l :: ls =>
    if (("=" : String).data).isPrefixOf l then
      (if inc then [] else extractLines true ls)
    else if inc && !((("APPROVE=" : String).data).isPrefixOf l) then
      l :: extractLines inc ls
    else extractLines inc ls

/-- `clean_content`: join the extracted lines and strip. -/
def extractClean (fileContent : String) : String :=
  pyStrip (String.intercalate "\n" ((extractLines false (splitOnNl fileContent.data)).map String.mk))

/-- Result of one `review_and_post` run: the returned boolean, the content
handed to the send routine (if any), whether the review artifact was renamed
to `posted_<name>`, and how many 300-second sleeps were performed. -/
structure ReviewOutcome where
  returned : Bool
  sent : Option String
  archivedReview : Bool
  sleeps : Nat
deriving DecidableEq

/-- `max_attempts = 12` (one hour at five-minute polls). -/
def max_attempts : Nat := 12

/-- `time.sleep(300)`: the five-minute poll interval in seconds. -/
def poll_interval_seconds : Nat := 300

/-- The approval-wait loop of `review_and_post`.  `obs k` is what reading the
review file at poll `k` yields (`none` = `FileNotFoundError`, handled by
returning `False`); the loop posts and archives as soon as a read contains
the substring `APPROVE=true`, sleeping once after each unsuccessful poll. -/
def reviewLoop (obs : Nat → Option String) (send : String → Bool) :
    Nat → Nat → ReviewOutcome
  | _, 0 => ⟨false, none, false, 0⟩
  | attempt, fuel + 1 =>
    match obs attempt with
    | none => ⟨false, none, false, 0⟩
    | some fc =>
      if strContains fc "APPROVE=true" then
        ⟨send (extractClean fc), some (extractClean fc), true, 0⟩
      else
        let r := reviewLoop obs send (attempt + 1) fuel
        ⟨r.returned, r.sent, r.archivedReview, r.sleeps + 1⟩

/-- Model of `LinkedInPoster.review_and_post`.  With review disabled the
content is sent directly (relay when configured); with review enabled the
artifact `buildReviewFile ts content usePipedream` is written (returned as
the second component) and the poll loop runs for at most `max_attempts`
reads. -/
def review_and_post (requireReview usePipedream : Bool) (ts content : String)
    (obs : Nat → Option String) (sendDirect sendRelay : String → Bool) :
    ReviewOutcome × Option String :=
  if !requireReview then
    (⟨(if usePipedream then sendRelay content else sendDirect content), some content, false, 0⟩,
     none)
  else
    (reviewLoop obs (if usePipedream then sendRelay else sendDirect) 0 max_attempts,
     some (buildReviewFile ts content usePipedream))

/-! ## Concrete sample inputs used by witnesses -/

/-- A file system with one active bucket for 2025-01-02 and nothing else. -/
def sampleFS : FS :=
  fun k => if k = eventsFile "2025-01-02" then some (.events []) else none

/-- A push payload with one commit, a branch ref and a repository name. -/
def samplePushPayload : JObj :=
  .cons "commits" (.arr (.cons (.obj .nil) .nil))
    (.cons "ref" (.str "refs/heads/main")
      (.cons "repository" (.obj (.cons "full_name" (.str "org/repo") .nil)) .nil))

/-- A well-formed stored event dict. -/
def sampleEventDict : JObj :=
  .cons "type" (.str "push") (.cons "summary" (.str "did things") .nil)
lemma beBytes_lt {b k n : Nat} (h : b ∈ beBytes k n) : b < 256 := by
  simp only [beBytes, List.mem_map] at h
  obtain ⟨i, -, rfl⟩ := h
  exact Nat.mod_lt _ (by norm_num)

lemma sha256_lt {b : Nat} {msg : List Nat} (h : b ∈ sha256 msg) : b < 256 := by
  simp only [sha256, List.mem_append] at h
  rcases h with ((((((h | h) | h) | h) | h) | h) | h) | h <;> exact beBytes_lt h

set_option maxRecDepth 2048 in
lemma hexDigit_ascii : ∀ b, b < 256 → ((hexDigit (b / 16)).toNat < 128 ∧ (hexDigit (b % 16)).toNat < 128) := by decide

lemma hexChars_ascii {bs : List Nat} (h : ∀ b ∈ bs, b < 256) :
    (hexChars bs).all (fun c => c.toNat < 128) = true := by
  induction bs with
  | nil => rfl
  | cons b bs ih =>
    have hb := hexDigit_ascii b (h b (List.mem_cons_self b bs))
    simp only [hexChars, List.all_cons, Bool.and_eq_true, decide_eq_true_eq]
    exact ⟨hb.1, hb.2, ih (fun x hx => h x (List.mem_cons_of_mem _ hx))⟩

lemma asciiOnly_expectedSignature (sec : String) (data : List Nat) :
    asciiOnly (expectedSignature sec data) = true := by
  unfold asciiOnly expectedSignature bytesToHex
  rw [String.data_append, List.all_append]
  refine Bool.and_eq_true .. |>.mpr ⟨by decide, ?_⟩
  exact hexChars_ascii (fun b hb => sha256_lt hb)

lemma verify_some_eq (sec : String) (hsec : sec ≠ "") (data : List Nat) (sig : String)
    (hascii : asciiOnly sig = true) :
    verify_webhook_signature (some sec) data (some sig) =
      .ok (expectedSignature sec data == sig) := by
  show (if sec = "" then Except.ok false
    else compare_digest (expectedSignature sec data) (some sig)) = _
  rw [if_neg hsec]
  show (if (asciiOnly (expectedSignature sec data) && asciiOnly sig) = true
    then Except.ok (expectedSignature sec data == sig) else Except.error PyErr.typeErr) = _
  rw [asciiOnly_expectedSignature, hascii]
  rfl

lemma hexDigit_inj : ∀ x, x < 16 → ∀ y, y < 16 → hexDigit x = hexDigit y → x = y := by decide

lemma hexChars_inj : ∀ bs1 bs2 : List Nat, (∀ b ∈ bs1, b < 256) → (∀ b ∈ bs2, b < 256) →
    hexChars bs1 = hexChars bs2 → bs1 = bs2
  | [], [], _, _, _ => rfl
  | [], _ :: _, _, _, h => by simp [hexChars] at h
  | _ :: _, [], _, _, h => by simp [hexChars] at h
  | b1 :: bs1, b2 :: bs2, h1, h2, h => by
    have hb1 := h1 b1 (List.mem_cons_self ..)
    have hb2 := h2 b2 (List.mem_cons_self ..)
    simp only [hexChars, List.cons.injEq] at h
    have hq := hexDigit_inj _ (Nat.div_lt_of_lt_mul (by omega)) _
      (Nat.div_lt_of_lt_mul (by omega)) h.1
    have hr := hexDigit_inj _ (Nat.mod_lt _ (by norm_num)) _
      (Nat.mod_lt _ (by norm_num)) h.2.1
    have hrec := hexChars_inj bs1 bs2 (fun x hx => h1 x (List.mem_cons_of_mem _ hx))
      (fun x hx => h2 x (List.mem_cons_of_mem _ hx)) h.2.2
    have : b1 = b2 := by omega
    rw [this, hrec]

lemma bytesToHex_inj {bs1 bs2 : List Nat} (h1 : ∀ b ∈ bs1, b < 256)
    (h2 : ∀ b ∈ bs2, b < 256) (h : bytesToHex bs1 = bytesToHex bs2) : bs1 = bs2 := by
  unfold bytesToHex at h
  exact hexChars_inj bs1 bs2 h1 h2 (by injection h)

lemma expectedSignature_inj {sec : String} {d1 d2 : List Nat}
    (h : expectedSignature sec d1 = expectedSignature sec d2) :
    hmacSha256 (strToBytes sec) d1 = hmacSha256 (strToBytes sec) d2 := by
  unfold expectedSignature at h
  have hd : ("sha256=" : String).data ++ (bytesToHex (hmacSha256 (strToBytes sec) d1)).data
      = ("sha256=" : String).data ++ (bytesToHex (hmacSha256 (strToBytes sec) d2)).data := by
    rw [← String.data_append, ← String.data_append, h]
  have hx : bytesToHex (hmacSha256 (strToBytes sec) d1)
      = bytesToHex (hmacSha256 (strToBytes sec) d2) := by
    apply String.ext
    exact List.append_cancel_left hd
  exact bytesToHex_inj (fun b hb => sha256_lt hb) (fun b hb => sha256_lt hb) hx

/-- Claim C1 (amended): with a configured non-empty secret and an ASCII
signature string, verification succeeds exactly for the expected
`"sha256=" + hexdigest` string; any other signature string yields `false`, and
any change of the body that changes the HMAC digest makes the old signature
fail; an unconfigured or empty secret yields `false`; an absent header raises
`TypeError` instead of returning `false`. -/
theorem C1_verify_webhook_signature (sec : String) (hsec : sec ≠ "")
    (data : List Nat) (sig : String) (hascii : asciiOnly sig = true) :
    (verify_webhook_signature (some sec) data (some sig) = .ok true ↔
      sig = expectedSignature sec data)
  ∧ (sig ≠ expectedSignature sec data →
      verify_webhook_signature (some sec) data (some sig) = .ok false)
  ∧ (∀ data' : List Nat,
      hmacSha256 (strToBytes sec) data' ≠ hmacSha256 (strToBytes sec) data →
      verify_webhook_signature (some sec) data' (some (expectedSignature sec data)) = .ok false)
  ∧ verify_webhook_signature none data (some sig) = .ok false
  ∧ verify_webhook_signature (some "") data (some sig) = .ok false
  ∧ verify_webhook_signature (some sec) data none = .error .typeErr := by
  refine ⟨?_, ?_, ?_, rfl, rfl, ?_⟩
  · rw [verify_some_eq sec hsec data sig hascii]
    simp only [Except.ok.injEq, beq_iff_eq]
    exact eq_comm
  · intro hne
    rw [verify_some_eq sec hsec data sig hascii,
      beq_eq_false_iff_ne.mpr (Ne.symm hne)]
  · intro data' hne
    rw [verify_some_eq sec hsec data' _ (asciiOnly_expectedSignature sec data),
      beq_eq_false_iff_ne.mpr (fun hc => hne (expectedSignature_inj hc))]
  · simp [verify_webhook_signature, compare_digest, if_neg hsec]

/-- Claim C1 witness: the amended theorem applied at a concrete secret, body
and signature, with both hypotheses discharged by computation. -/
theorem C1_witness :
    (("sk" : String) ≠ "" ∧ asciiOnly "xyz" = true)
  ∧ (verify_webhook_signature (some "sk") [1, 2, 3] (some "xyz") = .ok true ↔
      ("xyz" : String) = expectedSignature "sk" [1, 2, 3])
  ∧ verify_webhook_signature (some "sk") [1, 2, 3] none = .error .typeErr :=
  ⟨⟨by decide, by decide⟩,
   (C1_verify_webhook_signature "sk" (by decide) [1, 2, 3] "xyz" (by decide)).1,
   (C1_verify_webhook_signature "sk" (by decide) [1, 2, 3] "xyz" (by decide)).2.2.2.2.2⟩

/-- Claim C1 counterexample to the claim as stated: with a configured secret
and an absent signature header, `verify_webhook_signature` does not return
`false` — `hmac.compare_digest(str, None)` raises `TypeError` (surfaced as an
HTTP 500 by the webhook route, not a 403). -/
theorem C1_counterexample :
    verify_webhook_signature (some "testsecret") [] none = .error PyErr.typeErr
  ∧ verify_webhook_signature (some "testsecret") [] none ≠ .ok false
  ∧ github_webhook (some "testsecret") [] none (some "push") .nil "2025-01-02" "T0" true
      sampleFS = (500, sampleFS) :=
  ⟨rfl, by decide, rfl⟩

set_option maxRecDepth 8192 in
lemma sha256_empty_vector :
    bytesToHex (sha256 []) =
      "e3b0c44298fc1c149afbf4c8996fb92427ae41e4649b934ca495991b7852b855" := by decide

set_option maxRecDepth 32768 in
lemma hmacSha256_vector :
    bytesToHex (hmacSha256 (strToBytes "key")
        (strToBytes "The quick brown fox jumps over the lazy dog")) =
      "f7bc83f430538424b13298e6aa6fb143ef4d59a14946175997479dbc2d1a3cd8" := by decide

set_option maxRecDepth 65536 in
lemma verify_bitflip_check :
    verify_webhook_signature (some "sk") [1, 2, 3]
        (some (expectedSignature "sk" [1, 2, 3])) = .ok true
  ∧ verify_webhook_signature (some "sk") [1, 2, 2]
        (some (expectedSignature "sk" [1, 2, 3])) = .ok false := by
  constructor <;> decide

lemma eventsFile_ne_postedFile (d : String) : eventsFile d ≠ postedFile d := by
  intro h
  have hl := congrArg String.length h
  rw [eventsFile, postedFile, String.length_append, String.length_append,
    String.length_append, String.length_append] at hl
  have h1 : String.length "events_" = 7 := rfl
  have h2 : String.length "posted_events_" = 14 := rfl
  rw [h1, h2] at hl
  omega

lemma isPrefixOf_append_self (n t : List Char) : n.isPrefixOf (n ++ t) = true := by
  induction n with
  | nil => cases t <;> rfl
  | cons c cs ih => simp [List.isPrefixOf, ih]

lemma hasInfix_extend (n : List Char) (c : Char) (t : List Char)
    (h : hasInfix n t = true) : hasInfix n (c :: t) = true := by
  unfold hasInfix
  rw [h, Bool.or_true]

lemma hasInfix_append_left (n a t : List Char) (h : hasInfix n t = true) :
    hasInfix n (a ++ t) = true := by
  induction a with
  | nil => exact h
  | cons c cs ih => exact hasInfix_extend _ _ _ ih

lemma hasInfix_self (n t : List Char) : hasInfix n (n ++ t) = true := by
  cases n with
  | nil => cases t <;> simp [hasInfix, List.isPrefixOf, List.isEmpty]
  | cons c cs =>
    show ((c :: cs).isPrefixOf (c :: (cs ++ t)) || hasInfix (c :: cs) (cs ++ t)) = true
    rw [← List.cons_append, isPrefixOf_append_self (c :: cs) t, Bool.true_or]

lemma strContains_mid (x m y : String) : strContains (x ++ (m ++ y)) m = true := by
  unfold strContains
  rw [String.data_append, String.data_append]
  exact hasInfix_append_left _ _ _ (hasInfix_self _ _)

lemma strAppend_assoc (a b c : String) : (a ++ b) ++ c = a ++ (b ++ c) := by
  apply String.ext
  rw [String.data_append, String.data_append, String.data_append, String.data_append]
  exact List.append_assoc ..

lemma strContains_of_eq (t x m y : String) (h : t = x ++ (m ++ y)) :
    strContains t m = true := h ▸ strContains_mid x m y

/-- Claim C2: `save_event` followed by `load_events` for the same day yields
the previously observable events in order with exactly one new event appended,
whose summary is `summarize_event(type, payload)`.  (The hypothesis is that
the summary computation succeeds and the write does not raise; this holds for
every payload that does not make `summarize_event` itself raise.) -/
theorem C2_save_then_load (date ts : String) (fs : FS) (ty : String) (p : JObj)
    (s : String) (hsum : summarize_event ty p = .ok s) :
    ∃ fs', save_event date ts true fs ty p = .ok fs' ∧
      load_events fs' date = load_events fs date ++ [⟨ty, ts, s, p⟩] := by
  refine ⟨fsSet fs (eventsFile date)
    (some (.events (readBucket fs date ++ [⟨ty, ts, s, p⟩]))), ?_, ?_⟩
  · unfold save_event
    rw [hsum]
    rfl
  · simp [load_events, readBucket, fsSet]

/-- Claim C2 witness: a concrete push event saved into an empty directory. -/
theorem C2_witness :
    summarize_event "push" .nil = .ok "Pushed 0 commits to  in unknown-repo"
  ∧ ∃ fs', save_event "2025-01-02" "T0" true (fun _ => none) "push" .nil = .ok fs' ∧
      load_events fs' "2025-01-02" =
        load_events (fun _ => none) "2025-01-02" ++
          [⟨"push", "T0", "Pushed 0 commits to  in unknown-repo", .nil⟩] :=
  ⟨rfl, C2_save_then_load "2025-01-02" "T0" (fun _ => none) "push" .nil _ rfl⟩

/-- Claim C4: `archive_events` returns `true` exactly when an active bucket
existed and the rename succeeded, and a second call on an already-archived day
returns `false` (and raises nothing, the model being total) leaving the file
system unchanged. -/
theorem C4_archive_events (fs : FS) (date : String) (renameOk : Bool) :
    ((archive_events renameOk fs date).1 = true ↔
      (fs (eventsFile date)).isSome = true ∧ renameOk = true)
  ∧ (∀ r2 fs1, archive_events true fs date = (true, fs1) →
      archive_events r2 fs1 date = (false, fs1)) := by
  constructor
  · cases hfs : fs (eventsFile date) with
    | none => simp [archive_events, hfs]
    | some fd => cases renameOk <;> simp [archive_events, hfs]
  · intro r2 fs1 h
    cases hfs : fs (eventsFile date) with
    | none => simp [archive_events, hfs] at h
    | some fd =>
      simp only [archive_events, hfs, if_true, Prod.mk.injEq, true_and] at h
      obtain ⟨-, rfl⟩ := h
      have hef : (fsSet (fsSet fs (eventsFile date) none) (postedFile date) (some fd))
          (eventsFile date) = none := by
        simp [fsSet, if_neg (eventsFile_ne_postedFile date)]
      simp [archive_events, hef]

/-- Claim C4 witness: archiving the sample bucket succeeds, and archiving the
same day again returns `false` without changing anything. -/
theorem C4_witness :
    ((archive_events true sampleFS "2025-01-02").1 = true ↔
      (sampleFS (eventsFile "2025-01-02")).isSome = true ∧ true = true)
  ∧ archive_events false (archive_events true sampleFS "2025-01-02").2 "2025-01-02" =
      (false, (archive_events true sampleFS "2025-01-02").2) :=
  ⟨(C4_archive_events sampleFS "2025-01-02" true).1,
   (C4_archive_events sampleFS "2025-01-02" true).2 false _ rfl⟩

/-- Claim C5 (amended): a push summary is the exact sentence containing the
commit count and the branch with every occurrence of `refs/heads/` removed
(Python `str.replace`, not a prefix strip); with all fields missing no branch
throws, and the substituted defaults are `unknown-repo` for the repository,
`unknown` for a missing release tag, `updated` for a missing
repository/organization action, the empty string for a missing ref and zero
for missing commits. -/
theorem C5_summarize_event :
    (∀ (p : JObj) (r : String) (cs : JList) (rs : String),
      JObj.lookup p "commits" = some (.arr cs) →
      JObj.lookup p "ref" = some (.str r) →
      repoDisplay p = .ok rs →
      summarize_event "push" p =
        .ok ("Pushed " ++ toString cs.length ++ " commits to " ++
          pyReplace r "refs/heads/" "" ++ " in " ++ rs)
      ∧ strContains ("Pushed " ++ toString cs.length ++ " commits to " ++
          pyReplace r "refs/heads/" "" ++ " in " ++ rs) (toString cs.length) = true
      ∧ strContains ("Pushed " ++ toString cs.length ++ " commits to " ++
          pyReplace r "refs/heads/" "" ++ " in " ++ rs)
          (pyReplace r "refs/heads/" "") = true)
  ∧ summarize_event "push" .nil = .ok "Pushed 0 commits to  in unknown-repo"
  ∧ summarize_event "release" .nil = .ok "Released version unknown in unknown-repo"
  ∧ summarize_event "repository" .nil = .ok "Repository updated: unknown-repo"
  ∧ summarize_event "organization" .nil = .ok "Organization updated"
  ∧ ∀ ty, ty ∉ supported_events →
      summarize_event ty .nil = .ok (ty ++ " event occurred in " ++ "unknown-repo") := by
  refine ⟨?_, rfl, rfl, rfl, rfl, ?_⟩
  · intro p r cs rs hc hr hrepo
    cases hf : jGet ((p.lookup "repository").getD (JValue.obj JObj.nil)) "full_name" with
    | error e =>
      unfold repoDisplay at hrepo
      rw [hf] at hrepo
      cases hrepo
    | ok fv =>
      cases hn : jGet ((p.lookup "repository").getD (JValue.obj JObj.nil)) "name" with
      | error e =>
        unfold repoDisplay at hrepo
        rw [hf, hn] at hrepo
        cases hrepo
      | ok nv =>
        unfold repoDisplay at hrepo
        rw [hf, hn] at hrepo
        have hrs : pyStr (pyOr fv (pyOr nv (.str "unknown-repo"))) = rs := by
          injection hrepo
        refine ⟨?_, ?_, ?_⟩
        · unfold summarize_event
          rw [hf, hn, hr, hc, ← hrs]
          rfl
        · exact strContains_of_eq _ "Pushed " (toString cs.length)
            (" commits to " ++ (pyReplace r "refs/heads/" "" ++ (" in " ++ rs)))
            (by simp [strAppend_assoc])
        · exact strContains_of_eq _ ("Pushed " ++ toString cs.length ++ " commits to ")
            (pyReplace r "refs/heads/" "") (" in " ++ rs) (by simp [strAppend_assoc])
  · intro ty hty
    have h1 : ty ≠ "push" := fun h => hty (by rw [h]; decide)
    have h2 : ty ≠ "release" := fun h => hty (by rw [h]; decide)
    have h3 : ty ≠ "repository" := fun h => hty (by rw [h]; decide)
    have h4 : ty ≠ "organization" := fun h => hty (by rw [h]; decide)
    show (if ty = "push" then _ else if ty = "release" then _
      else if ty = "repository" then _ else if ty = "organization" then _
      else Except.ok (ty ++ " event occurred in " ++ pyStr (pyOr JValue.null
        (pyOr JValue.null (JValue.str "unknown-repo"))))) = _
    rw [if_neg h1, if_neg h2, if_neg h3, if_neg h4]
    rfl

/-- Claim C5 counterexample to the claim as stated: with the `action` field
missing, an organization event summarizes to `"Organization updated"` — the
default is `updated`, and no `unknown` substitution appears anywhere in the
result. -/
theorem C5_counterexample :
    summarize_event "organization" .nil = .ok "Organization updated"
  ∧ strContains "Organization updated" "unknown" = false :=
  ⟨rfl, rfl⟩

/-- Claim C5 witness: the push sentence at a concrete payload. -/
theorem C5_witness :
    (JObj.lookup samplePushPayload "commits" = some (.arr (.cons (.obj .nil) .nil))
      ∧ JObj.lookup samplePushPayload "ref" = some (.str "refs/heads/main")
      ∧ repoDisplay samplePushPayload = .ok "org/repo")
  ∧ summarize_event "push" samplePushPayload =
      .ok ("Pushed " ++ toString (JList.cons (.obj .nil) .nil).length ++ " commits to " ++
        pyReplace "refs/heads/main" "refs/heads/" "" ++ " in " ++ "org/repo") :=
  ⟨⟨rfl, rfl, rfl⟩,
   (C5_summarize_event.1 samplePushPayload "refs/heads/main"
     (.cons (.obj .nil) .nil) "org/repo" rfl rfl rfl).1⟩

/-- Claim C8: when the daily job's publish fails the bucket file is left
untouched (same file under the same name, same loaded events, so the next run
retries); only after a successful publish is it renamed to the archived name
and removed from its original name. -/
theorem C8_handle_posting_result (fs : FS) (date : String) (renameOk : Bool) :
    (handle_posting_result false renameOk fs date = fs
      ∧ load_events (handle_posting_result false renameOk fs date) date = load_events fs date)
  ∧ ((fs (eventsFile date)).isSome = true →
      (handle_posting_result true true fs date) (eventsFile date) = none
      ∧ (handle_posting_result true true fs date) (postedFile date) = fs (eventsFile date)) := by
  refine ⟨⟨rfl, rfl⟩, ?_⟩
  intro h
  cases hfs : fs (eventsFile date) with
  | none => rw [hfs] at h; cases h
  | some fd =>
    constructor
    · simp [handle_posting_result, archive_events, hfs, fsSet,
        if_neg (eventsFile_ne_postedFile date)]
    · simp [handle_posting_result, archive_events, hfs, fsSet]

/-- Claim C8 witness: the frame property at a concrete file system. -/
theorem C8_witness :
    (handle_posting_result false true sampleFS "2025-01-02" = sampleFS)
  ∧ (handle_posting_result true true sampleFS "2025-01-02") (eventsFile "2025-01-02") = none :=
  ⟨(C8_handle_posting_result sampleFS "2025-01-02" true).1.1,
   ((C8_handle_posting_result sampleFS "2025-01-02" true).2 rfl).1⟩

lemma save_event_writeErr (date ts : String) (fs : FS) (ty : String) (p : JObj) :
    ∃ e, save_event date ts false fs ty p = .error e := by
  cases hs : summarize_event ty p with
  | ok s =>
    refine ⟨.writeErr, ?_⟩
    unfold save_event
    rw [hs]
    rfl
  | error e =>
    refine ⟨e, ?_⟩
    unfold save_event
    rw [hs]

/-- Claim C9: `process_webhook_event` is total (the model returns a boolean
and a file system in every case): a missing or unsupported event type yields
`false` with nothing stored, a raising `save_event` (write failure) yields
`false` with nothing stored, and the webhook route still answers 200 whenever
the signature verified, regardless of the storage outcome. -/
theorem C9_process_webhook_event :
    (∀ date ts writeOk fs p, process_webhook_event date ts writeOk fs none p = (false, fs))
  ∧ (∀ date ts writeOk fs ty p, ty ∉ supported_events →
      process_webhook_event date ts writeOk fs (some ty) p = (false, fs))
  ∧ (∀ date ts fs ty p, process_webhook_event date ts false fs (some ty) p = (false, fs))
  ∧ (∀ sec body sig ev p date ts writeOk fs,
      verify_webhook_signature sec body sig = .ok true →
      (github_webhook sec body sig ev p date ts writeOk fs).1 = 200) := by
  refine ⟨fun _ _ _ _ _ => rfl, ?_, ?_, ?_⟩
  · intro date ts writeOk fs ty p hty
    simp [process_webhook_event, hty]
  · intro date ts fs ty p
    by_cases hty : ty ∈ supported_events
    · obtain ⟨e, he⟩ := save_event_writeErr date ts fs ty p
      simp [process_webhook_event, hty, he]
    · simp [process_webhook_event, hty]
  · intro sec body sig ev p date ts writeOk fs hv
    unfold github_webhook
    rw [hv]

/-- Claim C9 witness: an unsupported event, a failing write, and a verified
request that still answers 200 despite the failing write. -/
theorem C9_witness :
    process_webhook_event "2025-01-02" "T0" true sampleFS (some "ping") .nil = (false, sampleFS)
  ∧ process_webhook_event "2025-01-02" "T0" false sampleFS (some "push") .nil = (false, sampleFS)
  ∧ (github_webhook (some "sk") [1, 2, 3] (some (expectedSignature "sk" [1, 2, 3]))
      (some "push") .nil "2025-01-02" "T0" false sampleFS).1 = 200 := by
  have hv : verify_webhook_signature (some "sk") [1, 2, 3]
      (some (expectedSignature "sk" [1, 2, 3])) = .ok true := by
    rw [verify_some_eq "sk" (by decide) [1, 2, 3] _ (asciiOnly_expectedSignature "sk" [1, 2, 3]),
      beq_self_eq_true]
  exact ⟨C9_process_webhook_event.2.1 "2025-01-02" "T0" true sampleFS "ping" .nil (by decide),
    C9_process_webhook_event.2.2.1 "2025-01-02" "T0" sampleFS "push" .nil,
    C9_process_webhook_event.2.2.2 (some "sk") [1, 2, 3] _ (some "push") .nil
      "2025-01-02" "T0" false sampleFS hv⟩

lemma dedupSeen_mem (x : String) : ∀ (xs seen : List String),
    (x ∈ dedupSeen seen xs ↔ (x ∈ xs ∧ x ∉ seen))
  | [], seen => by simp [dedupSeen]
  | y :: xs, seen => by
    by_cases hy : y ∈ seen
    · rw [dedupSeen, if_pos hy, dedupSeen_mem x xs seen]
      constructor
      · exact fun ⟨h1, h2⟩ => ⟨List.mem_cons_of_mem _ h1, h2⟩
      · rintro ⟨h1, h2⟩
        cases List.mem_cons.mp h1 with
        | inl he => exact absurd (he ▸ hy) h2
        | inr he => exact ⟨he, h2⟩
    · rw [dedupSeen, if_neg hy]
      by_cases hxy : x = y
      · subst hxy
        simp [hy]
      · rw [List.mem_cons, List.mem_cons]
        rw [dedupSeen_mem x xs (y :: seen)]
        simp [hxy, List.mem_cons]

lemma dedupSeen_nodup : ∀ (xs seen : List String), (dedupSeen seen xs).Nodup
  | [], seen => List.nodup_nil
  | y :: xs, seen => by
    by_cases hy : y ∈ seen
    · rw [dedupSeen, if_pos hy]
      exact dedupSeen_nodup xs seen
    · rw [dedupSeen, if_neg hy]
      refine List.Nodup.cons ?_ (dedupSeen_nodup xs (y :: seen))
      intro hmem
      exact ((dedupSeen_mem y xs (y :: seen)).mp hmem).2 (List.mem_cons_self ..)

lemma pySetL_mem (x : String) (xs : List String) : x ∈ pySetL xs ↔ x ∈ xs := by
  rw [pySetL, dedupSeen_mem]
  simp

lemma buildLines_ok_of_wf : ∀ (events : List JObj), (∀ e ∈ events, wellFormedEvent e) →
    ∃ ls, buildLines events = .ok ls
  | [], _ => ⟨[], rfl⟩
  | e :: es, hw => by
    obtain ⟨⟨t, ht⟩, hs⟩ := hw e (List.mem_cons_self ..)
    obtain ⟨ls, hls⟩ := buildLines_ok_of_wf es (fun x hx => hw x (List.mem_cons_of_mem _ hx))
    cases hsv : e.lookup "summary" with
    | none => rw [hsv] at hs; cases hs
    | some sv =>
      refine ⟨("- " ++ pyTitle t ++ ": " ++ pyStr sv) :: ls, ?_⟩
      unfold buildLines lineOf pyIndex
      rw [ht, hsv, hls]

lemma extractTypes_ok_of_wf : ∀ (events : List JObj), (∀ e ∈ events, wellFormedEvent e) →
    ∃ tys, extractTypes events = .ok tys
  | [], _ => ⟨[], rfl⟩
  | e :: es, hw => by
    obtain ⟨⟨t, ht⟩, -⟩ := hw e (List.mem_cons_self ..)
    obtain ⟨tys, htys⟩ := extractTypes_ok_of_wf es (fun x hx => hw x (List.mem_cons_of_mem _ hx))
    refine ⟨t :: tys, ?_⟩
    unfold extractTypes pyIndex
    rw [ht, htys]

/-- Claim C6 (amended): for every event list whose entries all carry a string
`type` and a `summary`, a failing model call makes `generate_daily_summary`
return the templated fallback sentence built from the event count and the
deduplicated list of event types (the distinct set, in some order), without
propagating the model failure. -/
theorem C6_generate_daily_summary (events : List JObj) (llm : String → Option String)
    (hw : ∀ e ∈ events, wellFormedEvent e) (hl : ∀ p, llm p = none) :
    ∃ tys, extractTypes events = .ok tys ∧
      generate_daily_summary llm events = .ok (fallbackText events.length tys) ∧
      (pySetL tys).Nodup ∧ (∀ t, t ∈ pySetL tys ↔ t ∈ tys) := by
  obtain ⟨ls, hls⟩ := buildLines_ok_of_wf events hw
  obtain ⟨tys, htys⟩ := extractTypes_ok_of_wf events hw
  refine ⟨tys, htys, ?_, dedupSeen_nodup tys [], fun t => pySetL_mem t tys⟩
  simp only [generate_daily_summary, hls, hl, htys]

/-- Claim C6 counterexample to the claim as stated: on an event list whose
single entry lacks the `type` key, the generation fails with a `KeyError`
that propagates to the caller instead of the templated fallback (the
enumeration runs before the `try` block). -/
theorem C6_counterexample :
    generate_daily_summary (fun _ => none) [JObj.nil] = .error (.keyErr "type") := rfl

/-- Claim C6 witness: two well-formed events of the same type, a failing
model call, and the resulting deduplicated fallback sentence. -/
theorem C6_witness :
    ∃ tys, extractTypes [sampleEventDict, sampleEventDict] = .ok tys ∧
      generate_daily_summary (fun _ => none) [sampleEventDict, sampleEventDict] =
        .ok (fallbackText (List.length [sampleEventDict, sampleEventDict]) tys) ∧
      (pySetL tys).Nodup ∧ (∀ t, t ∈ pySetL tys ↔ t ∈ tys) :=
  C6_generate_daily_summary [sampleEventDict, sampleEventDict] (fun _ => none)
    (by
      intro e he
      have he' : e = sampleEventDict := by
        cases he with
        | head => rfl
        | tail _ h2 =>
          cases h2 with
          | head => rfl
          | tail _ h3 => cases h3
      rw [he']
      exact ⟨⟨"push", rfl⟩, rfl⟩)
    (fun _ => rfl)

lemma buildLines_keyErr : ∀ (events : List JObj),
    (∀ e ∈ events, typeOkIfPresent e) →
    (∃ e ∈ events, e.lookup "type" = none ∨ e.lookup "summary" = none) →
    ∃ k, buildLines events = .error (.keyErr k)
  | [], _, hbad => by
    obtain ⟨e, he, -⟩ := hbad
    cases he
  | e :: es, hty, hbad => by
    cases hl1 : e.lookup "type" with
    | none =>
      refine ⟨"type", ?_⟩
      unfold buildLines lineOf pyIndex
      rw [hl1]
    | some v =>
      obtain ⟨t, rfl⟩ := hty e (List.mem_cons_self ..) v hl1
      cases hl2 : e.lookup "summary" with
      | none =>
        refine ⟨"summary", ?_⟩
        unfold buildLines lineOf pyIndex
        rw [hl1, hl2]
      | some sv =>
        have hbad' : ∃ e2 ∈ es, e2.lookup "type" = none ∨ e2.lookup "summary" = none := by
          obtain ⟨e2, he2, hb⟩ := hbad
          cases List.mem_cons.mp he2 with
          | inl heq =>
            subst heq
            rcases hb with hb | hb
            · rw [hl1] at hb; cases hb
            · rw [hl2] at hb; cases hb
          | inr h2 => exact ⟨e2, h2, hb⟩
        obtain ⟨k, hk⟩ :=
          buildLines_keyErr es (fun x hx => hty x (List.mem_cons_of_mem _ hx)) hbad'
        refine ⟨k, ?_⟩
        have hline : lineOf e = .ok ("- " ++ pyTitle t ++ ": " ++ pyStr sv) := by
          unfold lineOf pyIndex
          rw [hl1, hl2]
        unfold buildLines
        rw [hline, hk]

/-- Claim C10 (amended): the prompt enumeration runs before the
error-handling block, so for any event list containing an entry that lacks a
`type` or `summary` key — provided every present `type` value is a string —
`generate_daily_summary` raises a `KeyError` for every model behaviour,
instead of returning the fallback; the fallback covers only failures of the
model call itself. -/
theorem C10_generate_daily_summary_keyerror (events : List JObj)
    (hty : ∀ e ∈ events, typeOkIfPresent e)
    (hbad : ∃ e ∈ events, e.lookup "type" = none ∨ e.lookup "summary" = none) :
    ∀ llm, ∃ k, generate_daily_summary llm events = .error (.keyErr k) := by
  intro llm
  obtain ⟨k, hk⟩ := buildLines_keyErr events hty hbad
  refine ⟨k, ?_⟩
  unfold generate_daily_summary
  rw [hk]

/-- Claim C10 counterexample to the claim as stated: a list containing a
keyless dict preceded by an event whose `type` is the integer 5 raises
`AttributeError` (from `.title()`), not a `KeyError`. -/
theorem C10_counterexample :
    generate_daily_summary (fun _ => none)
      [.cons "type" (.num 5) (.cons "summary" (.str "x") .nil), .nil] =
      .error .attributeErr := rfl

/-- Claim C10 witness: a single keyless event raises a `KeyError` no matter
what the model would answer. -/
theorem C10_witness :
    ∃ k, generate_daily_summary (fun _ => none) [JObj.nil] = .error (.keyErr k) :=
  C10_generate_daily_summary_keyerror [JObj.nil]
    (by
      intro e he v hv
      cases he with
      | head => cases hv
      | tail _ h2 => cases h2)
    ⟨JObj.nil, List.mem_cons_self .., Or.inl rfl⟩ (fun _ => none)

/-- Claim C7 (amended): `post_content` returns `true` exactly when identity
resolution succeeded and the post endpoint answered a non-error status
(outside 400..599, i.e. whenever `raise_for_status` passes — not only the 201
Created that LinkedIn actually sends); every identity error, network error or
HTTP error status yields `false`, and the model is a total boolean, so no
exception reaches the caller. -/
theorem C7_post_content (identity : Except PyErr String) (postResult : Except PyErr Nat) :
    post_content identity postResult = true ↔
      ((∃ urn, identity = .ok urn) ∧ ∃ s, postResult = .ok s ∧ ¬(400 ≤ s ∧ s < 600)) := by
  cases identity with
  | error e =>
    simp only [post_content]
    refine iff_of_false (by decide) ?_
    rintro ⟨⟨urn, hurn⟩, -⟩
    cases hurn
  | ok urn =>
    cases postResult with
    | error e2 =>
      simp only [post_content]
      refine iff_of_false (by decide) ?_
      rintro ⟨-, s, hs, -⟩
      cases hs
    | ok s =>
      by_cases hs : 400 ≤ s ∧ s < 600
      · have hrs : raise_for_status s = .error (.httpErr s) := by
          rw [raise_for_status, if_pos hs]
        simp only [post_content, hrs]
        refine iff_of_false (by decide) ?_
        rintro ⟨-, s2, hs2, hno⟩
        injection hs2 with h'
        exact hno (h' ▸ hs)
      · have hrs : raise_for_status s = .ok () := by
          rw [raise_for_status, if_neg hs]
        simp only [post_content, hrs]
        exact iff_of_true (by decide) ⟨⟨urn, rfl⟩, s, rfl, hs⟩

/-- Claim C7 counterexample to the claim as stated: a 200 response is not the
201 Created status, yet `post_content` reports success, because the code only
checks `raise_for_status` (any non-4xx/5xx passes). -/
theorem C7_counterexample :
    post_content (.ok "urn:li:person:1") (.ok 200) = true ∧ (200 : Nat) ≠ 201 :=
  ⟨rfl, by decide⟩

lemma strContains_append_right (a t m : String) (h : strContains t m = true) :
    strContains (a ++ t) m = true := by
  unfold strContains at *
  rw [String.data_append]
  exact hasInfix_append_left _ _ _ h

lemma reviewFile_contains_approve_true (ts content : String) (up : Bool) :
    strContains (buildReviewFile ts content up) "APPROVE=true" = true := by
  unfold buildReviewFile
  exact strContains_append_right _ _ _ (by decide)

lemma reviewFile_contains_approve_false (ts content : String) (up : Bool) :
    strContains (buildReviewFile ts content up) "APPROVE=false" = true := by
  unfold buildReviewFile
  exact strContains_append_right _ _ _ (by decide)

lemma reviewLoop_approved_now (obs : Nat → Option String) (send : String → Bool)
    (attempt fuel : Nat) (f : String) (hobs : obs attempt = some f)
    (happr : strContains f "APPROVE=true" = true) :
    reviewLoop obs send attempt (fuel + 1) =
      ⟨send (extractClean f), some (extractClean f), true, 0⟩ := by
  unfold reviewLoop
  rw [hobs]
  show (if strContains f "APPROVE=true" = true then _ else _) = _
  rw [if_pos happr]

set_option maxRecDepth 100000 in
/-- Claim C3 (code bug): the instruction line of a freshly written review
artifact already contains the literal `APPROVE=true`, so the substring check
fires on the very first poll: with review required the content is sent
immediately (zero sleeps, no human approval), the artifact carrying the
explicit `APPROVE=false` marker notwithstanding, and it is then renamed to
the archived name.  The claimed wait/poll/timeout behaviour is unreachable
when the artifact exists. -/
theorem C3_review_autoapproves :
    (∀ ts content (up : Bool), strContains (buildReviewFile ts content up) "APPROVE=false" = true)
  ∧ (∀ ts content (up : Bool), strContains (buildReviewFile ts content up) "APPROVE=true" = true)
  ∧ (∀ ts content (up : Bool) (sd sr : String → Bool),
      review_and_post true up ts content (fun _ => some (buildReviewFile ts content up)) sd sr =
        (⟨(if up then sr else sd) (extractClean (buildReviewFile ts content up)),
          some (extractClean (buildReviewFile ts content up)), true, 0⟩,
         some (buildReviewFile ts content up)))
  ∧ review_and_post true false "2025-01-02T09:00:00" "Shipped v1"
      (fun _ => some (buildReviewFile "2025-01-02T09:00:00" "Shipped v1" false))
      (fun _ => true) (fun _ => false) =
      (⟨true, some "Shipped v1", true, 0⟩,
       some (buildReviewFile "2025-01-02T09:00:00" "Shipped v1" false)) := by
  have hclean : extractClean (buildReviewFile "2025-01-02T09:00:00" "Shipped v1" false) =
      "Shipped v1" := by decide
  have hmain : ∀ ts content (up : Bool) (sd sr : String → Bool),
      review_and_post true up ts content (fun _ => some (buildReviewFile ts content up)) sd sr =
        (⟨(if up then sr else sd) (extractClean (buildReviewFile ts content up)),
          some (extractClean (buildReviewFile ts content up)), true, 0⟩,
         some (buildReviewFile ts content up)) := by
    intro ts content up sd sr
    unfold review_and_post
    show (reviewLoop _ _ 0 max_attempts, _) = _
    rw [show max_attempts = 11 + 1 from rfl,
      reviewLoop_approved_now _ _ 0 11 (buildReviewFile ts content up) rfl
        (reviewFile_contains_approve_true ts content up)]
  refine ⟨reviewFile_contains_approve_false, reviewFile_contains_approve_true, hmain, ?_⟩
  rw [hmain "2025-01-02T09:00:00" "Shipped v1" false (fun _ => true) (fun _ => false), hclean]
  rfl
